import Mathlib

/-!
Shallow embedding of the scoring/ranking core of `src/comparison.py`
(procurement quotation comparison): currency conversion, free-text field
parsers, cost aggregation (TCO, tooling), the five-criterion cohort scorer
with missing-data penalty, and the compare pipeline.

Python floats are modelled as exact rationals (ℚ); Python `round(x, n)` is
modelled as rounding `x * 10^n` to the nearest integer.  Python dicts keyed
by year are modelled as association lists; `None` and the `"N/A"` sentinel
string stored in optional fields are modelled with `Option`.
-/

/-- Python `round(x, 2)`: round to two decimal places. -/
def round2 (q : ℚ) : ℚ := (round (q * 100) : ℤ) / 100

/-- Python `round(x, 1)`: round to one decimal place. -/
def round1 (q : ℚ) : ℚ := (round (q * 10) : ℤ) / 10

/-- Python `min(list)` over a non-empty list (junk value 0 on `[]`,
which the source never reaches: every call site guards non-emptiness). -/
def pymin : List ℚ → ℚ
  | [] => 0
  | a :: rest => rest.foldl min a

/-- Python `max(list)` over a non-empty list (junk value 0 on `[]`). -/
def pymax : List ℚ → ℚ
  | [] => 0
  | a :: rest => rest.foldl max a

/-- `EXCHANGE_RATES` from `comparison.py`: currency code → rate to EUR. -/
def EXCHANGE_RATES : List (String × ℚ) :=
  [("USD", 92/100), ("EUR", 1), ("GBP", 117/100), ("JPY", 62/10000)]

/-- `convert_to_eur` generalized over the rate table (the source closes over
the module-level `EXCHANGE_RATES` dict; the table is explicit here so that
statements about arbitrary table contents can be made). -/
def convert_with (rates : List (String × ℚ)) (amount : ℚ) (from_currency : String) : ℚ :=
  if from_currency = "EUR" then amount
  else amount * ((rates.lookup from_currency).getD 1)

/-- `convert_to_eur(amount, from_currency)` from `comparison.py`. -/
def convert_to_eur (amount : ℚ) (from_currency : String) : ℚ :=
  convert_with EXCHANGE_RATES amount from_currency

/-! ## Scorer input and output records

`Item` carries the fields of the comparison-item dict that the scorer reads.
A Python `None` or the `"N/A"` string stored in `moq` both fail the
`isinstance` test and both belong to the penalty list `[None, "N/A", 0]`,
so both are modelled as `none`. -/

structure Item where
  supplier : String
  original_currency : String
  total_cost_eur : ℚ
  total_cost_original : ℚ
  tooling_cost_eur : ℚ
  tooling_cost_original : ℚ
  tooling_cost_type : Option String
  unit_cost_avg_eur : ℚ
  unit_cost_avg_original : ℚ
  delivery_terms : Option String
  incoterms : String
  lead_time : Option String
  lead_time_weeks : Option ℚ
  payment_terms : Option String
  payment_days : Option ℤ
  moq : Option ℤ
  quotation_date : Option String
  years_covered : List ℤ
deriving DecidableEq

structure Scores where
  tco_score : ℚ
  delivery_score : ℚ
  payment_score : ℚ
  tooling_score : ℚ
  moq_score : ℚ
  missing_data_penalty : ℚ
deriving DecidableEq

/-- `ProcurementScorer.WEIGHTS`. -/
def WEIGHTS : List (String × ℚ) :=
  [("tco", 35/100), ("delivery", 25/100), ("payment", 20/100),
   ("tooling", 10/100), ("moq", 10/100)]

/-- Lookup of one named weight from the constant set. -/
def weightOf (k : String) : ℚ := (WEIGHTS.lookup k).getD 0

/-- `ProcurementScorer._score_tco`. -/
def _score_tco (item : Item) (all_items : List Item) : ℚ :=
  let tcos := all_items.map (·.total_cost_eur)
  let min_tco := pymin tcos
  let max_tco := pymax tcos
  if max_tco = min_tco then 100
  else round2 (max 0 (100 * (1 - (item.total_cost_eur - min_tco) / (max_tco - min_tco))))

/-- `ProcurementScorer._score_delivery`. -/
def _score_delivery (item : Item) (all_items : List Item) : ℚ :=
  let lead_times := all_items.filterMap (·.lead_time_weeks)
  match item.lead_time_weeks with
  | none => 20
  | some w =>
    if lead_times.isEmpty then 20
    else
      let min_weeks := pymin lead_times
      let max_weeks := pymax lead_times
      if max_weeks = min_weeks then 100
      else round2 (max 0 (100 * (1 - (w - min_weeks) / (max_weeks - min_weeks))))

/-- `ProcurementScorer._score_payment`. -/
def _score_payment (item : Item) (all_items : List Item) : ℚ :=
  let payment_days_list := all_items.filterMap (fun d => d.payment_days.map (fun n => (n : ℚ)))
  match item.payment_days with
  | none => 20
  | some w =>
    if payment_days_list.isEmpty then 20
    else
      let min_days := pymin payment_days_list
      let max_days := pymax payment_days_list
      if max_days = min_days then 100
      else round2 (max 0 (100 * (1 - ((w : ℚ) - min_days) / (max_days - min_days))))

/-- `ProcurementScorer._score_tooling`. -/
def _score_tooling (item : Item) (all_items : List Item) : ℚ :=
  let tooling_costs := all_items.map (·.tooling_cost_eur)
  let min_tooling := pymin tooling_costs
  let max_tooling := pymax tooling_costs
  if max_tooling = min_tooling then 100
  else round2 (max 0 (100 * (1 - (item.tooling_cost_eur - min_tooling) / (max_tooling - min_tooling))))

/-- Valid MOQ values of the cohort: `isinstance(moq, (int, float)) and moq > 0`. -/
def validMoqs (all_items : List Item) : List ℚ :=
  all_items.filterMap (fun d =>
    match d.moq with
    | some n => if 0 < n then some (n : ℚ) else none
    | none => none)

/-- `ProcurementScorer._score_moq`. -/
def _score_moq (item : Item) (all_items : List Item) : ℚ :=
  let moqs := validMoqs all_items
  match item.moq with
  | none => 20
  | some n =>
    if n ≤ 0 then 20
    else if moqs.isEmpty then 20
    else
      let min_moq := pymin moqs
      let max_moq := pymax moqs
      if max_moq = min_moq then 100
      else round2 (max 0 (100 * (1 - ((n : ℚ) - min_moq) / (max_moq - min_moq))))

/-- A text field counts as missing when it is `None`, `"N/A"` or `""`. -/
def isMissingText : Option String → Bool
  | none => true
  | some s => s = "N/A" || s = ""

/-- The six missing-data conditions of `_calculate_missing_data_penalty`. -/
def missingConds (item : Item) : List Bool :=
  [isMissingText item.lead_time,
   isMissingText item.payment_terms,
   isMissingText item.delivery_terms,
   isMissingText item.quotation_date,
   item.moq = none || item.moq = some 0,
   item.tooling_cost_eur = 0 && item.tooling_cost_original = 0]

/-- `ProcurementScorer._calculate_missing_data_penalty`:
`min(100, sum(missing_fields) * 10)`. -/
def _calculate_missing_data_penalty (item : Item) : ℚ :=
  min 100 (((missingConds item).countP id : ℚ) * 10)

/-- The unpenalized weighted sum inside `_calculate_weighted_total`. -/
def baseTotal (s : Scores) : ℚ :=
  s.tco_score * weightOf "tco" +
  s.delivery_score * weightOf "delivery" +
  s.payment_score * weightOf "payment" +
  s.tooling_score * weightOf "tooling" +
  s.moq_score * weightOf "moq"

/-- The value `base_total * penalty_factor` before the final floor/round. -/
def preRound (s : Scores) : ℚ :=
  baseTotal s * (1 - s.missing_data_penalty / 100)

/-- `ProcurementScorer._calculate_weighted_total`. -/
def _calculate_weighted_total (s : Scores) : ℚ :=
  round2 (max 0 (preRound s))

/-- `ProcurementScorer._calculate_all_scores`. -/
def _calculate_all_scores (item : Item) (all_items : List Item) : Scores :=
  { tco_score := _score_tco item all_items
    delivery_score := _score_delivery item all_items
    payment_score := _score_payment item all_items
    tooling_score := _score_tooling item all_items
    moq_score := _score_moq item all_items
    missing_data_penalty := _calculate_missing_data_penalty item }

/-- One scored cohort member.  `idx` is the item's position in the input
cohort, embedding Python object identity through the in-place mutation. -/
structure ScoredItem where
  idx : ℕ
  item : Item
  scores : Scores
  total_score : ℚ
deriving DecidableEq

/-- The scoring pass of `score_all` before the sort: each item gets its
scores and weighted total, cohort-relative. -/
def scoreItems (data : List Item) : List ScoredItem :=
  data.enum.map (fun p =>
    { idx := p.1, item := p.2,
      scores := _calculate_all_scores p.2 data,
      total_score := _calculate_weighted_total (_calculate_all_scores p.2 data) })

/-- Stable insertion: `x` is placed before the first element `y` with
`before x y`.  Used to model Python's stable `sorted`/`list.sort`. -/
def insertBy {α : Type} (before : α → α → Bool) (x : α) : List α → List α
  | [] => [x]
  | y :: ys => if before x y then x :: y :: ys else y :: insertBy before x ys

/-- Stable insertion sort; with `before x y` true on ties this keeps
earlier input elements first, exactly like Python's stable sort. -/
def sortBy {α : Type} (before : α → α → Bool) : List α → List α
  | [] => []
  | x :: xs => insertBy before (x) (sortBy before xs)

/-- Comparison used by `sorted(..., key=total_score, reverse=True)`:
descending by score, earlier input first on ties. -/
def descScore (x y : ScoredItem) : Bool := y.total_score ≤ x.total_score

/-- `ProcurementScorer.score_all`: score the cohort, sort descending by
total score (stably), and attach `final_ranking` = 1-based position. -/
def score_all (data : List Item) : List (ScoredItem × ℕ) :=
  if data.isEmpty then []
  else (sortBy descScore (scoreItems data)).enum.map (fun p => (p.2, p.1 + 1))

/-! ## Field parsers (`QuotationComparator`) -/

/-- Numeric value of a digit run. -/
def digitsToNat (cs : List Char) : ℕ :=
  cs.foldl (fun a c => 10 * a + (c.toNat - 48)) 0

/-- First match of the regex `\d+\.?\d*` in a character list as a pair of
digit runs (integer part, fractional part): starts at the first digit,
takes the maximal digit run, an optional dot, and a further digit run. -/
def findFirstToken : List Char → Option (List Char × List Char)
  | [] => none
  | c :: cs =>
    if c.isDigit then
      let intPart := (c :: cs).takeWhile Char.isDigit
      let rest := (c :: cs).dropWhile Char.isDigit
      let fracPart :=
        match rest with
        | '.' :: r => r.takeWhile Char.isDigit
        | _ => []
      some (intPart, fracPart)
    else findFirstToken cs

/-- Value of a numeric token, as in Python `float(token)`. -/
def tokenToRat (t : List Char × List Char) : ℚ :=
  (digitsToNat t.1 : ℚ) + (digitsToNat t.2 : ℚ) / 10 ^ t.2.length

/-- First numeric token of the text, as a rational. -/
def findFirstNumber (cs : List Char) : Option ℚ :=
  (findFirstToken cs).map tokenToRat

/-- Lower-cased character list of a string (ASCII, as in the source texts). -/
def lowerChars (s : String) : List Char := s.toList.map Char.toLower

/-- `tok` occurs as a contiguous run somewhere in `text`. -/
def listContains (text tok : List Char) : Bool :=
  match text with
  | [] => tok.isEmpty
  | _ :: rest => tok.isPrefixOf text || listContains rest tok

/-- Substring containment on the lower-cased text (`'day' in lead_time_lower`). -/
def containsToken (text : List Char) (tok : String) : Bool :=
  listContains text tok.toList

/-- The unit-keyword conversion of `_parse_lead_time`: days divide by 7,
months multiply by 4.33, years multiply by 52, otherwise already weeks. -/
def convertUnits (lower : List Char) (n : ℚ) : ℚ :=
  if containsToken lower "day" || containsToken lower "tag" then n / 7
  else if containsToken lower "month" || containsToken lower "monat" then n * (433/100)
  else if containsToken lower "year" || containsToken lower "jahr" then n * 52
  else n

/-- `QuotationComparator._parse_lead_time`: extract the first number, apply
the unit conversion keyed on substring keywords, round to one decimal. -/
def _parse_lead_time (lead_time : Option String) : Option ℚ :=
  match lead_time with
  | none => none
  | some s =>
    if s = "" || s = "N/A" then none
    else
      match findFirstToken (lowerChars s) with
      | none => none
      | some t => some (round1 (convertUnits (lowerChars s) (tokenToRat t)))

/-- Python `\s` whitespace characters (ASCII range). -/
def isPySpace (c : Char) : Bool :=
  c = ' ' || c = '\t' || c = '\n' || c = '\r' || c = '\x0b' || c = '\x0c'

/-- Match of `(\d+)\s*(?:days?|tag)` anchored at the head of the text:
maximal digit run, then whitespace, then the literal `day` or `tag`
(`days?` only requires the stem `day`). -/
def matchDaysAt (cs : List Char) : Option ℕ :=
  match cs with
  | [] => none
  | c :: _ =>
    if c.isDigit then
      let ds := cs.takeWhile Char.isDigit
      let afterWs := (cs.dropWhile Char.isDigit).dropWhile isPySpace
      if "day".toList.isPrefixOf afterWs || "tag".toList.isPrefixOf afterWs then
        some (digitsToNat ds)
      else none
    else none

/-- Leftmost match of `(\d+)\s*(?:days?|tag)` (`re.search` semantics). -/
def searchDays : List Char → Option ℕ
  | [] => none
  | c :: cs =>
    match matchDaysAt (c :: cs) with
    | some n => some n
    | none => searchDays cs

/-- Match of `net\s*(\d+)` anchored at the head of the text. -/
def matchNetAt (cs : List Char) : Option ℕ :=
  if "net".toList.isPrefixOf cs then
    let afterWs := (cs.drop 3).dropWhile isPySpace
    let ds := afterWs.takeWhile Char.isDigit
    if ds.isEmpty then none else some (digitsToNat ds)
  else none

/-- Leftmost match of `net\s*(\d+)`. -/
def searchNet : List Char → Option ℕ
  | [] => none
  | c :: cs =>
    match matchNetAt (c :: cs) with
    | some n => some n
    | none => searchNet cs

/-- `QuotationComparator._parse_payment_terms`. -/
def _parse_payment_terms (payment_terms : Option String) : Option ℤ :=
  match payment_terms with
  | none => none
  | some s =>
    if s = "" || s = "N/A" then none
    else
      let lower := lowerChars s
      match searchDays lower with
      | some n => some (n : ℤ)
      | none =>
        match searchNet lower with
        | some n => some (n : ℤ)
        | none => none

/-- The fixed incoterm list of `_extract_incoterms`, in priority order. -/
def INCOTERMS : List String :=
  ["EXW", "FCA", "FAS", "FOB", "CFR", "CIF", "CPT", "CIP", "DAP", "DPU", "DDP"]

/-- `QuotationComparator._extract_incoterms`. -/
def _extract_incoterms (delivery_terms : Option String) : String :=
  match delivery_terms with
  | none => "N/A"
  | some s =>
    if s = "" || s = "N/A" then "N/A"
    else
      let up := s.toList.map Char.toUpper
      ((INCOTERMS.find? (fun t => listContains up t.toList)).getD "N/A")

/-! ## Quotation record and cost aggregation -/

/-- `ExtractedQuotation` from `models.py`.  Year-keyed dicts are association
lists; `quotation_date` carries the already-formatted `%Y-%m-%d` string
(datetime parsing/formatting is external library code). -/
structure ExtractedQuotation where
  supplier_name : String
  annual_prices : List (ℤ × ℚ)
  annual_quantities : List (ℤ × ℤ)
  tooling_cost : Option ℚ
  tooling_cost_type : Option String
  delivery_terms : Option String
  payment_terms : Option String
  lead_time : Option String
  currency : String
  quotation_date : Option String
  moq : Option ℤ
deriving DecidableEq

/-- The tooling-cost type names a recurring fee:
`tooling_cost_type and tooling_cost_type.lower() in ['renewal', 'recurring']`. -/
def isRecurringType (t : Option String) : Bool :=
  match t with
  | none => false
  | some s =>
    let l := String.mk (lowerChars s)
    l = "renewal" || l = "recurring"

/-- The renewal multiplier: years present in `annual_prices`, 1 if empty. -/
def yearsMultiplier (q : ExtractedQuotation) : ℕ :=
  if q.annual_prices.isEmpty then 1 else q.annual_prices.length

/-- `QuotationComparator._calculate_tooling_cost`. -/
def _calculate_tooling_cost (q : ExtractedQuotation) : ℚ :=
  let tooling_base := q.tooling_cost.getD 0
  if isRecurringType q.tooling_cost_type then tooling_base * (yearsMultiplier q : ℚ)
  else tooling_base

/-- Σ over the years of `annual_prices` of price × quantity
(quantity 0 for a year absent from `annual_quantities`). -/
def annualTotal (q : ExtractedQuotation) : ℚ :=
  (q.annual_prices.map (fun yp => yp.2 * ((q.annual_quantities.lookup yp.1).getD 0 : ℚ))).sum

/-- `QuotationComparator._calculate_tco`: annual totals plus tooling cost;
`if quote.tooling_cost:` adds nothing for an absent or zero tooling cost. -/
def _calculate_tco (q : ExtractedQuotation) : ℚ :=
  let total := annualTotal q
  match q.tooling_cost with
  | none => total
  | some c =>
    if c = 0 then total
    else if isRecurringType q.tooling_cost_type then total + c * (yearsMultiplier q : ℚ)
    else total + c

/-- `QuotationComparator._calculate_avg_unit_cost`. -/
def _calculate_avg_unit_cost (q : ExtractedQuotation) : ℚ :=
  if q.annual_prices.isEmpty then 0
  else (q.annual_prices.map (·.2)).sum / (q.annual_prices.length : ℚ)

/-- `QuotationComparator._calculate_avg_unit_cost_eur`. -/
def _calculate_avg_unit_cost_eur (q : ExtractedQuotation) : ℚ :=
  if q.annual_prices.isEmpty then 0
  else (q.annual_prices.map (fun p => convert_to_eur p.2 q.currency)).sum / (q.annual_prices.length : ℚ)

/-- Python `x or "N/A"`: `None` and the empty string both fall back. -/
def orNA (s : Option String) : String :=
  match s with
  | none => "N/A"
  | some t => if t = "" then "N/A" else t

/-- `quote.moq or "N/A"`: `None` and 0 become the `"N/A"` sentinel. -/
def moqOrNA (m : Option ℤ) : Option ℤ :=
  match m with
  | none => none
  | some n => if n = 0 then none else some n

/-- One row of a per-year price breakdown. -/
structure BreakdownRow where
  year : ℤ
  unit_price : ℚ
  quantity : ℤ
  total : ℚ
deriving DecidableEq

/-- `QuotationComparator._get_price_breakdown_original` (years ascending). -/
def _get_price_breakdown_original (q : ExtractedQuotation) : List BreakdownRow :=
  (List.insertionSort (· ≤ ·) (q.annual_prices.map (·.1))).map (fun y =>
    let unit_price := (q.annual_prices.lookup y).getD 0
    let quantity := (q.annual_quantities.lookup y).getD 0
    { year := y, unit_price := unit_price, quantity := quantity,
      total := unit_price * (quantity : ℚ) })

/-- `QuotationComparator._get_price_breakdown_eur`. -/
def _get_price_breakdown_eur (q : ExtractedQuotation) : List BreakdownRow :=
  (List.insertionSort (· ≤ ·) (q.annual_prices.map (·.1))).map (fun y =>
    let unit_price := convert_to_eur ((q.annual_prices.lookup y).getD 0) q.currency
    let quantity := (q.annual_quantities.lookup y).getD 0
    { year := y, unit_price := unit_price, quantity := quantity,
      total := unit_price * (quantity : ℚ) })

/-- `QuotationComparator._build_comparison_item`. -/
def _build_comparison_item (q : ExtractedQuotation) : Item :=
  let tco_original := _calculate_tco q
  let tooling_base := _calculate_tooling_cost q
  { supplier := q.supplier_name
    original_currency := q.currency
    total_cost_eur := convert_to_eur tco_original q.currency
    total_cost_original := tco_original
    tooling_cost_eur := convert_to_eur tooling_base q.currency
    tooling_cost_original := tooling_base
    tooling_cost_type := q.tooling_cost_type
    unit_cost_avg_eur := _calculate_avg_unit_cost_eur q
    unit_cost_avg_original := _calculate_avg_unit_cost q
    delivery_terms := some (orNA q.delivery_terms)
    incoterms := _extract_incoterms q.delivery_terms
    lead_time := some (orNA q.lead_time)
    lead_time_weeks := _parse_lead_time q.lead_time
    payment_terms := some (orNA q.payment_terms)
    payment_days := _parse_payment_terms q.payment_terms
    moq := moqOrNA q.moq
    quotation_date := some (q.quotation_date.getD "N/A")
    years_covered := q.annual_prices.map (·.1) }

/-! ## Compare pipeline (`QuotationComparator.compare`) -/

/-- `Recommendation` record shape from `models.py` /
`LLMRecommendationEngine.generate_recommendation` (content is produced by
the external model call, which `compare` receives as a collaborator). -/
structure Recommendation where
  recommended_supplier : Option String
  total_score : ℚ
  reasoning : String
  key_advantages : List String
  considerations : List String
  missing_data_impact : Option String

/-- One row of the final comparison table: the scored item with its
`final_ranking`, `cost_ranking` and merged `ranking` fields. -/
structure CompareRow where
  sitem : ScoredItem
  final_ranking : ℕ
  cost_ranking : ℕ
  ranking : ℕ

/-- `_generate_summary` output shape. -/
structure Summary where
  total_suppliers : ℕ
  lowest_cost : ℚ
  highest_cost : ℚ
  cost_range : ℚ
  best_supplier : Option String
  best_score : ℚ

/-- `QuotationComparator._generate_summary` (on a non-empty scored list). -/
def _generate_summary (rows : List CompareRow) : Option Summary :=
  match rows with
  | [] => none
  | r :: _ =>
    let costs := rows.map (fun x => x.sitem.item.total_cost_eur)
    some { total_suppliers := rows.length
           lowest_cost := pymin costs
           highest_cost := pymax costs
           cost_range := pymax costs - pymin costs
           best_supplier := some r.sitem.item.supplier
           best_score := r.sitem.total_score }

/-- Comparison used by `comparison_data.sort(key=total_cost_eur)`:
ascending by cohort EUR cost, earlier input first on ties. -/
def ascCost (x y : ScoredItem) : Bool := x.item.total_cost_eur ≤ y.item.total_cost_eur

/-- `cost_ranking` of the input item at position `j`: its 1-based position
in the stable cost-ascending ordering of the cohort. -/
def costRankOf (costSorted : List ScoredItem) (j : ℕ) : ℕ :=
  costSorted.findIdx (fun x => x.idx = j) + 1

/-- Full `compare` result; `none` models the empty dict `{}`. -/
structure ComparisonResult where
  comparison_table : List CompareRow
  summary : Option Summary
  recommendation : Recommendation
  generated_at : String

/-- `QuotationComparator.compare`, with the external recommendation
collaborator and clock passed as parameters. -/
def QuotationComparator.compare (recEngine : List CompareRow → Recommendation) (now : String)
    (quotations : List ExtractedQuotation) : Option ComparisonResult :=
  if quotations.isEmpty then none
  else
    let comparison_data := quotations.map _build_comparison_item
    let scored := score_all comparison_data
    let costSorted := sortBy ascCost (scoreItems comparison_data)
    let rows := scored.map (fun p =>
      { sitem := p.1, final_ranking := p.2,
        cost_ranking := costRankOf costSorted p.1.idx,
        ranking := p.2 : CompareRow })
    some { comparison_table := rows
           summary := _generate_summary rows
           recommendation := recEngine rows
           generated_at := now }

/-! ## Helper lemmas: Python min/max folds -/

theorem foldl_min_le_init (l : List ℚ) (a : ℚ) : l.foldl min a ≤ a := by
  induction l generalizing a with
  | nil => exact le_refl a
  | cons b t ih => exact le_trans (ih (min a b)) (min_le_left a b)

theorem foldl_min_le_of_mem {x : ℚ} {l : List ℚ} (h : x ∈ l) (a : ℚ) :
    l.foldl min a ≤ x := by
  induction l generalizing a with
  | nil => cases h
  | cons b t ih =>
    rcases List.mem_cons.mp h with rfl | hx
    · exact le_trans (foldl_min_le_init t (min a x)) (min_le_right a x)
    · exact ih hx (min a b)

theorem pymin_le_of_mem {x : ℚ} {l : List ℚ} (h : x ∈ l) : pymin l ≤ x := by
  cases l with
  | nil => cases h
  | cons a t =>
    rcases List.mem_cons.mp h with rfl | hx
    · exact foldl_min_le_init t x
    · exact foldl_min_le_of_mem hx a

theorem init_le_foldl_max (l : List ℚ) (a : ℚ) : a ≤ l.foldl max a := by
  induction l generalizing a with
  | nil => exact le_refl a
  | cons b t ih => exact le_trans (le_max_left a b) (ih (max a b))

theorem le_foldl_max_of_mem {x : ℚ} {l : List ℚ} (h : x ∈ l) (a : ℚ) :
    x ≤ l.foldl max a := by
  induction l generalizing a with
  | nil => cases h
  | cons b t ih =>
    rcases List.mem_cons.mp h with rfl | hx
    · exact le_trans (le_max_right a x) (init_le_foldl_max t (max a x))
    · exact ih hx (max a b)

theorem le_pymax_of_mem {x : ℚ} {l : List ℚ} (h : x ∈ l) : x ≤ pymax l := by
  cases l with
  | nil => cases h
  | cons a t =>
    rcases List.mem_cons.mp h with rfl | hx
    · exact init_le_foldl_max t x
    · exact le_foldl_max_of_mem hx a

theorem foldl_min_const {c : ℚ} {l : List ℚ} (h : ∀ x ∈ l, x = c) :
    l.foldl min c = c := by
  induction l with
  | nil => rfl
  | cons b t ih =>
    have hb : b = c := h b (List.mem_cons_self b t)
    have ht : ∀ x ∈ t, x = c := fun x hx => h x (List.mem_cons_of_mem b hx)
    simp [hb, ih ht]

theorem pymin_const {c : ℚ} {l : List ℚ} (hne : l ≠ []) (h : ∀ x ∈ l, x = c) :
    pymin l = c := by
  cases l with
  | nil => exact absurd rfl hne
  | cons a t =>
    have ha : a = c := h a (List.mem_cons_self a t)
    have ht : ∀ x ∈ t, x = c := fun x hx => h x (List.mem_cons_of_mem a hx)
    simpa [pymin, ha] using foldl_min_const ht

theorem foldl_max_const {c : ℚ} {l : List ℚ} (h : ∀ x ∈ l, x = c) :
    l.foldl max c = c := by
  induction l with
  | nil => rfl
  | cons b t ih =>
    have hb : b = c := h b (List.mem_cons_self b t)
    have ht : ∀ x ∈ t, x = c := fun x hx => h x (List.mem_cons_of_mem b hx)
    simp [hb, ih ht]

theorem pymax_const {c : ℚ} {l : List ℚ} (hne : l ≠ []) (h : ∀ x ∈ l, x = c) :
    pymax l = c := by
  cases l with
  | nil => exact absurd rfl hne
  | cons a t =>
    have ha : a = c := h a (List.mem_cons_self a t)
    have ht : ∀ x ∈ t, x = c := fun x hx => h x (List.mem_cons_of_mem a hx)
    simpa [pymax, ha] using foldl_max_const ht

/-! ## Helper lemmas: rounding -/

theorem round_le_round {x y : ℚ} (h : x ≤ y) : round x ≤ round y := by
  rw [round_eq, round_eq]
  exact Int.floor_le_floor (by linarith)

theorem round2_nonneg {x : ℚ} (h : 0 ≤ x) : 0 ≤ round2 x := by
  unfold round2
  have h1 : round (0 : ℚ) ≤ round (x * 100) := round_le_round (by linarith)
  rw [round_zero] at h1
  have : (0 : ℚ) ≤ (round (x * 100) : ℤ) := by exact_mod_cast h1
  linarith [div_nonneg this (by norm_num : (0:ℚ) ≤ 100)]

theorem round2_le_100 {x : ℚ} (h : x ≤ 100) : round2 x ≤ 100 := by
  unfold round2
  have h1 : round (x * 100) ≤ round ((10000 : ℚ)) := round_le_round (by linarith)
  rw [round_ofNat] at h1
  have h2 : ((round (x * 100) : ℤ) : ℚ) ≤ 10000 := by exact_mod_cast h1
  rw [div_le_iff₀ (by norm_num : (0:ℚ) < 100)]
  linarith

/-- Bounds for one min–max normalization branch of the scorer. -/
theorem minmax_branch_bounds {v mn mx : ℚ} (hmn : mn ≤ v) (hvx : v ≤ mx)
    (hne : ¬ mx = mn) :
    0 ≤ round2 (max 0 (100 * (1 - (v - mn) / (mx - mn)))) ∧
    round2 (max 0 (100 * (1 - (v - mn) / (mx - mn)))) ≤ 100 := by
  have hlt : mn < mx := lt_of_le_of_ne (le_trans hmn hvx) (fun h => hne h.symm)
  have ht : 0 ≤ (v - mn) / (mx - mn) :=
    div_nonneg (by linarith) (by linarith)
  have hup : 100 * (1 - (v - mn) / (mx - mn)) ≤ 100 := by nlinarith
  constructor
  · exact round2_nonneg (le_max_left 0 _)
  · exact round2_le_100 (max_le (by norm_num) hup)

/-! ## Per-criterion score bounds -/

theorem score_tco_bounds {item : Item} {all_items : List Item} (h : item ∈ all_items) :
    0 ≤ _score_tco item all_items ∧ _score_tco item all_items ≤ 100 := by
  have hm : item.total_cost_eur ∈ all_items.map (·.total_cost_eur) :=
    List.mem_map_of_mem _ h
  simp only [_score_tco]
  split
  · norm_num
  · exact minmax_branch_bounds (pymin_le_of_mem hm) (le_pymax_of_mem hm) (by assumption)

theorem score_delivery_bounds {item : Item} {all_items : List Item} (h : item ∈ all_items) :
    0 ≤ _score_delivery item all_items ∧ _score_delivery item all_items ≤ 100 := by
  simp only [_score_delivery]
  split
  · norm_num
  · rename_i w hw
    have hm : w ∈ all_items.filterMap (·.lead_time_weeks) :=
      List.mem_filterMap.mpr ⟨item, h, hw⟩
    split
    · norm_num
    · split
      · norm_num
      · exact minmax_branch_bounds (pymin_le_of_mem hm) (le_pymax_of_mem hm) (by assumption)

theorem score_payment_bounds {item : Item} {all_items : List Item} (h : item ∈ all_items) :
    0 ≤ _score_payment item all_items ∧ _score_payment item all_items ≤ 100 := by
  simp only [_score_payment]
  split
  · norm_num
  · rename_i w hw
    have hm : ((w : ℚ)) ∈ all_items.filterMap (fun d => d.payment_days.map (fun n => (n : ℚ))) :=
      List.mem_filterMap.mpr ⟨item, h, by rw [hw]; rfl⟩
    split
    · norm_num
    · split
      · norm_num
      · exact minmax_branch_bounds (pymin_le_of_mem hm) (le_pymax_of_mem hm) (by assumption)

theorem score_tooling_bounds {item : Item} {all_items : List Item} (h : item ∈ all_items) :
    0 ≤ _score_tooling item all_items ∧ _score_tooling item all_items ≤ 100 := by
  have hm : item.tooling_cost_eur ∈ all_items.map (·.tooling_cost_eur) :=
    List.mem_map_of_mem _ h
  simp only [_score_tooling]
  split
  · norm_num
  · exact minmax_branch_bounds (pymin_le_of_mem hm) (le_pymax_of_mem hm) (by assumption)

theorem score_moq_bounds {item : Item} {all_items : List Item} (h : item ∈ all_items) :
    0 ≤ _score_moq item all_items ∧ _score_moq item all_items ≤ 100 := by
  simp only [_score_moq]
  split
  · norm_num
  · rename_i n hn
    split
    · norm_num
    · rename_i hpos
      have hm : ((n : ℚ)) ∈ validMoqs all_items := by
        refine List.mem_filterMap.mpr ⟨item, h, ?_⟩
        rw [hn]
        simp [lt_of_not_le (fun hc => hpos (by exact_mod_cast hc))]
      split
      · norm_num
      · split
        · norm_num
        · exact minmax_branch_bounds (pymin_le_of_mem hm) (le_pymax_of_mem hm) (by assumption)

theorem penalty_bounds (item : Item) :
    0 ≤ _calculate_missing_data_penalty item ∧
    _calculate_missing_data_penalty item ≤ 100 := by
  unfold _calculate_missing_data_penalty
  constructor
  · exact le_min (by norm_num) (by positivity)
  · exact min_le_left _ _

theorem weighted_total_bounds {s : Scores}
    (h1 : 0 ≤ s.tco_score ∧ s.tco_score ≤ 100)
    (h2 : 0 ≤ s.delivery_score ∧ s.delivery_score ≤ 100)
    (h3 : 0 ≤ s.payment_score ∧ s.payment_score ≤ 100)
    (h4 : 0 ≤ s.tooling_score ∧ s.tooling_score ≤ 100)
    (h5 : 0 ≤ s.moq_score ∧ s.moq_score ≤ 100)
    (h6 : 0 ≤ s.missing_data_penalty ∧ s.missing_data_penalty ≤ 100) :
    0 ≤ _calculate_weighted_total s ∧ _calculate_weighted_total s ≤ 100 := by
  have hw1 : weightOf "tco" = 35/100 := by rfl
  have hw2 : weightOf "delivery" = 25/100 := by rfl
  have hw3 : weightOf "payment" = 20/100 := by rfl
  have hw4 : weightOf "tooling" = 10/100 := by rfl
  have hw5 : weightOf "moq" = 10/100 := by rfl
  have hbase : 0 ≤ baseTotal s ∧ baseTotal s ≤ 100 := by
    unfold baseTotal
    rw [hw1, hw2, hw3, hw4, hw5]
    constructor <;> nlinarith [h1.1, h1.2, h2.1, h2.2, h3.1, h3.2, h4.1, h4.2, h5.1, h5.2]
  have hfac : 0 ≤ 1 - s.missing_data_penalty / 100 ∧ 1 - s.missing_data_penalty / 100 ≤ 1 := by
    constructor <;> [linarith [h6.2, div_le_one_of_le₀ h6.2 (by norm_num : (0:ℚ) ≤ 100)]; linarith [div_nonneg h6.1 (by norm_num : (0:ℚ) ≤ 100)]]
  have hpre : preRound s ≤ 100 := by
    unfold preRound
    nlinarith [hbase.1, hbase.2, hfac.1, hfac.2]
  unfold _calculate_weighted_total
  exact ⟨round2_nonneg (le_max_left 0 _), round2_le_100 (max_le (by norm_num) hpre)⟩

/-- Combined bound for one cohort member's weighted total score. -/
theorem total_score_bounds {item : Item} {data : List Item} (h : item ∈ data) :
    0 ≤ _calculate_weighted_total (_calculate_all_scores item data) ∧
    _calculate_weighted_total (_calculate_all_scores item data) ≤ 100 := by
  exact weighted_total_bounds (score_tco_bounds h) (score_delivery_bounds h)
    (score_payment_bounds h) (score_tooling_bounds h) (score_moq_bounds h)
    (penalty_bounds item)

/-! ## Helper lemmas: stable insertion sort -/

theorem insertBy_cons {α : Type} (before : α → α → Bool) (y z : α) (zs : List α) :
    insertBy before y (z :: zs) =
    if before y z then y :: z :: zs else z :: insertBy before y zs := rfl

theorem sortBy_cons {α : Type} (before : α → α → Bool) (x : α) (xs : List α) :
    sortBy before (x :: xs) = insertBy before x (sortBy before xs) := rfl

theorem mem_insertBy {α : Type} {before : α → α → Bool} {x y : α} {l : List α} :
    x ∈ insertBy before y l ↔ x = y ∨ x ∈ l := by
  induction l with
  | nil => simp [insertBy]
  | cons z zs ih =>
    rw [insertBy_cons]
    by_cases hb : before y z
    · rw [if_pos hb]
      simp [List.mem_cons]
    · rw [if_neg hb]
      simp only [List.mem_cons, ih]
      tauto

theorem insertBy_perm {α : Type} (before : α → α → Bool) (y : α) (l : List α) :
    List.Perm (insertBy before y l) (y :: l) := by
  induction l with
  | nil => rfl
  | cons z zs ih =>
    rw [insertBy_cons]
    by_cases hb : before y z
    · rw [if_pos hb]
    · rw [if_neg hb]
      exact (ih.cons z).trans (List.Perm.swap y z zs)

theorem sortBy_perm {α : Type} (before : α → α → Bool) (l : List α) :
    List.Perm (sortBy before l) l := by
  induction l with
  | nil => rfl
  | cons x xs ih => exact (insertBy_perm before x (sortBy before xs)).trans (ih.cons x)

/-- The descending-score relation the ranked output is sorted by. -/
def scoreGE (a b : ScoredItem) : Prop := b.total_score ≤ a.total_score

theorem not_descScore {x z : ScoredItem} (hb : ¬ descScore x z = true) :
    x.total_score < z.total_score := by
  unfold descScore at hb
  exact lt_of_not_le (fun hc => hb (decide_eq_true hc))

theorem pairwise_insertBy_desc {x : ScoredItem} {l : List ScoredItem}
    (h : l.Pairwise scoreGE) : (insertBy descScore x l).Pairwise scoreGE := by
  induction l with
  | nil => simp [insertBy, List.pairwise_cons]
  | cons z zs ih =>
    rcases List.pairwise_cons.mp h with ⟨hz, hzs⟩
    rw [insertBy_cons]
    by_cases hb : descScore x z
    · have hxz : z.total_score ≤ x.total_score := of_decide_eq_true hb
      rw [if_pos hb]
      refine List.pairwise_cons.mpr ⟨?_, h⟩
      intro a ha
      rcases List.mem_cons.mp ha with rfl | ha'
      · exact hxz
      · exact le_trans (hz a ha') hxz
    · have hzx : x.total_score < z.total_score := not_descScore hb
      rw [if_neg hb]
      refine List.pairwise_cons.mpr ⟨?_, ih hzs⟩
      intro a ha
      rcases mem_insertBy.mp ha with rfl | ha'
      · exact le_of_lt hzx
      · exact hz a ha'

theorem pairwise_sortBy_desc (l : List ScoredItem) :
    (sortBy descScore l).Pairwise scoreGE := by
  induction l with
  | nil => exact List.Pairwise.nil
  | cons x xs ih => exact pairwise_insertBy_desc ih

theorem filter_insertBy_stable (x : ScoredItem) (l : List ScoredItem) (s : ℚ) :
    (insertBy descScore x l).filter (fun a => decide (a.total_score = s)) =
    (x :: l).filter (fun a => decide (a.total_score = s)) := by
  induction l with
  | nil => rfl
  | cons z zs ih =>
    rw [insertBy_cons]
    by_cases hb : descScore x z
    · rw [if_pos hb]
    · rw [if_neg hb]
      have hzx : x.total_score < z.total_score := not_descScore hb
      by_cases hx : x.total_score = s
      · have hz : ¬ z.total_score = s := by
          intro hzs
          rw [← hx] at hzs
          exact absurd hzs (ne_of_gt hzx)
        simp [List.filter_cons, hx, hz, ih]
      · simp [List.filter_cons, hx, ih]

theorem filter_sortBy_stable (l : List ScoredItem) (s : ℚ) :
    (sortBy descScore l).filter (fun a => decide (a.total_score = s)) =
    l.filter (fun a => decide (a.total_score = s)) := by
  induction l with
  | nil => rfl
  | cons x xs ih =>
    rw [sortBy_cons, filter_insertBy_stable x (sortBy descScore xs) s]
    by_cases hx : x.total_score = s
    · simp [List.filter_cons, hx, ih]
    · simp [List.filter_cons, hx, ih]

/-! ## Helper lemmas: enumeration -/

theorem snd_mem_of_mem_enumFrom {α : Type} :
    ∀ (l : List α) (n : ℕ) (p : ℕ × α), p ∈ List.enumFrom n l → p.2 ∈ l := by
  intro l
  induction l with
  | nil => intro n p h; cases h
  | cons x xs ih =>
    intro n p h
    rcases List.mem_cons.mp h with rfl | h'
    · exact List.mem_cons_self x xs
    · exact List.mem_cons_of_mem x (ih (n + 1) p h')

theorem snd_mem_of_mem_enum {α : Type} {l : List α} {p : ℕ × α}
    (h : p ∈ l.enum) : p.2 ∈ l :=
  snd_mem_of_mem_enumFrom l 0 p h

theorem enumFrom_map_snd_add_one {α : Type} :
    ∀ (l : List α) (n : ℕ),
      (List.enumFrom n l).map (fun p => p.1 + 1) = List.range' (n + 1) l.length := by
  intro l
  induction l with
  | nil => intro n; rfl
  | cons x xs ih =>
    intro n
    show (n + 1) :: (List.enumFrom (n + 1) xs).map (fun p => p.1 + 1) =
      (n + 1) :: List.range' (n + 2) xs.length
    exact congrArg (List.cons (n + 1)) (ih (n + 1))

theorem enumFrom_map_snd {α : Type} :
    ∀ (l : List α) (n : ℕ), (List.enumFrom n l).map Prod.snd = l := by
  intro l
  induction l with
  | nil => intro n; rfl
  | cons x xs ih =>
    intro n
    show x :: (List.enumFrom (n + 1) xs).map Prod.snd = x :: xs
    exact congrArg (List.cons x) (ih (n + 1))

theorem mem_scoreItems {x : ScoredItem} {data : List Item} (h : x ∈ scoreItems data) :
    x.item ∈ data ∧ x.scores = _calculate_all_scores x.item data ∧
    x.total_score = _calculate_weighted_total (_calculate_all_scores x.item data) := by
  unfold scoreItems at h
  rcases List.mem_map.mp h with ⟨p, hp, rfl⟩
  exact ⟨snd_mem_of_mem_enum hp, rfl, rfl⟩

theorem length_scoreItems (data : List Item) : (scoreItems data).length = data.length := by
  unfold scoreItems
  rw [List.length_map]
  exact List.enum_length

theorem score_all_map_fst {data : List Item} (h : ¬ data.isEmpty = true) :
    (score_all data).map Prod.fst = sortBy descScore (scoreItems data) := by
  unfold score_all
  rw [if_neg h, List.map_map]
  show (List.enumFrom 0 (sortBy descScore (scoreItems data))).map Prod.snd = _
  exact enumFrom_map_snd _ 0

theorem mem_score_all {p : ScoredItem × ℕ} {data : List Item}
    (h : p ∈ score_all data) : p.1 ∈ scoreItems data := by
  unfold score_all at h
  by_cases hd : data.isEmpty
  · rw [if_pos hd] at h
    cases h
  · rw [if_neg hd] at h
    rcases List.mem_map.mp h with ⟨q, hq, rfl⟩
    exact ((sortBy_perm descScore (scoreItems data)).mem_iff).mp (snd_mem_of_mem_enum hq)

theorem score_tco_all_tie {item : Item} {all_items : List Item} (h : item ∈ all_items)
    (htie : ∀ d ∈ all_items, d.total_cost_eur = item.total_cost_eur) :
    _score_tco item all_items = 100 := by
  have hne : all_items.map (·.total_cost_eur) ≠ [] := by
    intro hc
    rw [List.map_eq_nil_iff] at hc
    rw [hc] at h
    cases h
  have hconst : ∀ x ∈ all_items.map (·.total_cost_eur), x = item.total_cost_eur := by
    intro x hx
    rcases List.mem_map.mp hx with ⟨d, hd, rfl⟩
    exact htie d hd
  have h1 : pymin (all_items.map (·.total_cost_eur)) = item.total_cost_eur :=
    pymin_const hne hconst
  have h2 : pymax (all_items.map (·.total_cost_eur)) = item.total_cost_eur :=
    pymax_const hne hconst
  simp only [_score_tco]
  rw [if_pos (h2.trans h1.symm)]

/-- C1: the five criterion weights sum to exactly 1, and every composite
score the scorer assigns on a non-empty cohort lies in [0, 100]. -/
theorem weights_sum_one_and_composite_score_range :
    (WEIGHTS.map Prod.snd).sum = 1 ∧
    ∀ (data : List Item), data ≠ [] → ∀ p ∈ score_all data,
      0 ≤ p.1.total_score ∧ p.1.total_score ≤ 100 := by
  constructor
  · show (35/100 + (25/100 + (20/100 + (10/100 + (10/100 + 0)))) : ℚ) = 1
    norm_num
  · intro data _ p hp
    obtain ⟨hmem, _, hts⟩ := mem_scoreItems (mem_score_all hp)
    rw [hts]
    exact total_score_bounds hmem

/-- Witness item: an empty quotation record (everything missing, cost 0). -/
def w0 : Item :=
  { supplier := "S0", original_currency := "EUR", total_cost_eur := 0,
    total_cost_original := 0, tooling_cost_eur := 0, tooling_cost_original := 0,
    tooling_cost_type := none, unit_cost_avg_eur := 0, unit_cost_avg_original := 0,
    delivery_terms := none, incoterms := "N/A", lead_time := none,
    lead_time_weeks := none, payment_terms := none, payment_days := none,
    moq := none, quotation_date := none, years_covered := [] }

/-- Witness item: cohort cost 10. -/
def wA : Item :=
  { w0 with supplier := "SA", total_cost_eur := 10, total_cost_original := 10 }

/-- Witness item: cohort cost 30. -/
def wB : Item :=
  { w0 with supplier := "SB", total_cost_eur := 30, total_cost_original := 30 }

/-- The scored pair produced by `score_all [w0]`. -/
def w0Pair : ScoredItem × ℕ :=
  ({ idx := 0, item := w0,
     scores := _calculate_all_scores w0 [w0],
     total_score := _calculate_weighted_total (_calculate_all_scores w0 [w0]) }, 1)

theorem weights_sum_one_and_composite_score_range_witness :
    0 ≤ w0Pair.1.total_score ∧ w0Pair.1.total_score ≤ 100 :=
  weights_sum_one_and_composite_score_range.2 [w0] (List.cons_ne_nil w0 [])
    w0Pair (by rw [show score_all [w0] = [w0Pair] from rfl]; exact List.mem_singleton.mpr rfl)

/-- C6: the ranking sort is stable — items with exactly equal composite
scores keep their input order; the output is sorted descending by composite
score and `final_ranking` numbers it 1..n. -/
theorem ranking_stable_sort :
    ∀ (data : List Item) (s : ℚ),
      ((score_all data).map Prod.fst).filter (fun x => decide (x.total_score = s)) =
        (scoreItems data).filter (fun x => decide (x.total_score = s)) ∧
      ((score_all data).map Prod.fst).Pairwise scoreGE ∧
      (score_all data).map Prod.snd = List.range' 1 data.length := by
  intro data s
  by_cases hd : data.isEmpty
  · have hdata : data = [] := List.isEmpty_iff.mp hd
    subst hdata
    exact ⟨rfl, List.Pairwise.nil, rfl⟩
  · refine ⟨?_, ?_, ?_⟩
    · rw [score_all_map_fst hd]
      exact filter_sortBy_stable _ s
    · rw [score_all_map_fst hd]
      exact pairwise_sortBy_desc _
    · unfold score_all
      rw [if_neg hd, List.map_map]
      have h1 : (Prod.snd ∘ fun p : ℕ × ScoredItem => (p.2, p.1 + 1)) =
          fun p : ℕ × ScoredItem => p.1 + 1 := rfl
      rw [h1]
      show (List.enumFrom 0 (sortBy descScore (scoreItems data))).map
        (fun p => p.1 + 1) = _
      rw [enumFrom_map_snd_add_one (sortBy descScore (scoreItems data)) 0,
        (sortBy_perm descScore (scoreItems data)).length_eq, length_scoreItems]

/-- C10: each of the five per-criterion scores lies in [0, 100] for every
member of the cohort; the all-tie branch yields exactly 100 and the
missing-data fallback yields exactly 20. -/
theorem criterion_scores_in_range :
    ∀ (data : List Item) (item : Item), item ∈ data →
      (0 ≤ _score_tco item data ∧ _score_tco item data ≤ 100) ∧
      (0 ≤ _score_delivery item data ∧ _score_delivery item data ≤ 100) ∧
      (0 ≤ _score_payment item data ∧ _score_payment item data ≤ 100) ∧
      (0 ≤ _score_tooling item data ∧ _score_tooling item data ≤ 100) ∧
      (0 ≤ _score_moq item data ∧ _score_moq item data ≤ 100) ∧
      ((∀ d ∈ data, d.total_cost_eur = item.total_cost_eur) → _score_tco item data = 100) ∧
      (item.lead_time_weeks = none → _score_delivery item data = 20) := by
  intro data item h
  refine ⟨score_tco_bounds h, score_delivery_bounds h, score_payment_bounds h,
    score_tooling_bounds h, score_moq_bounds h, score_tco_all_tie h, ?_⟩
  intro hl
  simp [_score_delivery, hl]

theorem criterion_scores_in_range_witness :
    0 ≤ _score_tco wA [wA, wB] ∧ _score_tco wA [wA, wB] ≤ 100 :=
  (criterion_scores_in_range [wA, wB] wA (List.mem_cons_self wA [wB])).1

theorem round2_hundred : round2 100 = 100 := by
  unfold round2
  rw [show ((100:ℚ) * 100) = ((10000:ℕ) : ℚ) by norm_num, round_natCast]
  norm_num

theorem round2_zero : round2 0 = 0 := by
  unfold round2
  rw [zero_mul, round_zero]
  norm_num

/-- C2: the TCO score follows min–max normalization over the cohort's EUR
TCO values — the all-tie branch gives 100 to everyone, the minimum-cost
item scores 100, the maximum-cost item scores 0, and otherwise the score
is the normalized formula floored at 0 and rounded to 2 decimals. -/
theorem tco_score_minmax_spec :
    ∀ (all_items : List Item) (item : Item), item ∈ all_items →
      ((∀ d ∈ all_items, d.total_cost_eur = item.total_cost_eur) →
        _score_tco item all_items = 100) ∧
      (pymax (all_items.map (·.total_cost_eur)) ≠ pymin (all_items.map (·.total_cost_eur)) →
        _score_tco item all_items =
          round2 (max 0 (100 * (1 -
            (item.total_cost_eur - pymin (all_items.map (·.total_cost_eur))) /
            (pymax (all_items.map (·.total_cost_eur)) -
             pymin (all_items.map (·.total_cost_eur))))))) ∧
      (item.total_cost_eur = pymin (all_items.map (·.total_cost_eur)) →
        _score_tco item all_items = 100) ∧
      (pymax (all_items.map (·.total_cost_eur)) ≠ pymin (all_items.map (·.total_cost_eur)) →
        item.total_cost_eur = pymax (all_items.map (·.total_cost_eur)) →
        _score_tco item all_items = 0) := by
  intro all_items item h
  refine ⟨score_tco_all_tie h, ?_, ?_, ?_⟩
  · intro hne
    simp only [_score_tco]
    rw [if_neg hne]
  · intro hmin
    by_cases hc : pymax (all_items.map (·.total_cost_eur)) = pymin (all_items.map (·.total_cost_eur))
    · simp only [_score_tco]
      rw [if_pos hc]
    · simp only [_score_tco]
      rw [if_neg hc, hmin, sub_self, zero_div, sub_zero, mul_one,
        max_eq_right (by norm_num : (0:ℚ) ≤ 100)]
      exact round2_hundred
  · intro hne hmax
    simp only [_score_tco]
    rw [if_neg hne, hmax, div_self (sub_ne_zero.mpr hne), sub_self, mul_zero,
      max_eq_right (le_refl (0:ℚ))]
    exact round2_zero

theorem tco_score_minmax_spec_witness :
    _score_tco wA [wA, wB] = 100 ∧ _score_tco wB [wA, wB] = 0 := by
  have hA := tco_score_minmax_spec [wA, wB] wA (List.mem_cons_self wA [wB])
  have hB := tco_score_minmax_spec [wA, wB] wB (by simp)
  have hmin : wA.total_cost_eur = pymin ([wA, wB].map (·.total_cost_eur)) := by
    norm_num [pymin, wA, wB, w0, min_def]
  have hne : pymax ([wA, wB].map (·.total_cost_eur)) ≠ pymin ([wA, wB].map (·.total_cost_eur)) := by
    norm_num [pymin, pymax, wA, wB, w0, min_def, max_def]
  have hmax : wB.total_cost_eur = pymax ([wA, wB].map (·.total_cost_eur)) := by
    norm_num [pymax, wA, wB, w0, max_def]
  exact ⟨hA.2.2.1 hmin, hB.2.2.2 hne hmax⟩

/-- C3: the missing-data penalty is 10 per failed condition (of six),
capped at 100 (the cap never binds), and a 30-point penalty scales the
unpenalized weighted total by exactly 70% before the floor and rounding. -/
theorem missing_data_penalty_spec :
    ∀ item : Item,
      _calculate_missing_data_penalty item = ((missingConds item).countP id : ℚ) * 10 ∧
      _calculate_missing_data_penalty item ≤ 100 ∧
      ((missingConds item).countP id = 3 → _calculate_missing_data_penalty item = 30) ∧
      (∀ s : Scores, s.missing_data_penalty = 30 →
        preRound s = (70 / 100) * baseTotal s) := by
  intro item
  have hcount : (missingConds item).countP id ≤ 6 := by
    have := List.countP_le_length (l := missingConds item) (p := id)
    simpa [missingConds] using this
  have hle : (((missingConds item).countP id : ℚ)) * 10 ≤ 100 := by
    have h6 : (((missingConds item).countP id : ℚ)) ≤ 6 := by exact_mod_cast hcount
    linarith
  have heq : _calculate_missing_data_penalty item = ((missingConds item).countP id : ℚ) * 10 := by
    unfold _calculate_missing_data_penalty
    exact min_eq_right hle
  refine ⟨heq, ?_, ?_, ?_⟩
  · unfold _calculate_missing_data_penalty
    exact min_le_left _ _
  · intro h3
    rw [heq, h3]
    norm_num
  · intro s hs
    unfold preRound
    rw [hs]
    ring

/-- Witness item for the penalty: lead time, payment terms and MOQ missing
(3 of 6 conditions), the other three fields present/non-zero. -/
def w3 : Item :=
  { w0 with
    supplier := "S3"
    delivery_terms := some "FOB Hamburg"
    incoterms := "FOB"
    quotation_date := some "2024-01-15"
    tooling_cost_eur := 5
    tooling_cost_original := 5 }

/-- Witness score record carrying a 30-point penalty. -/
def s30 : Scores :=
  { tco_score := 50, delivery_score := 50, payment_score := 50,
    tooling_score := 50, moq_score := 50, missing_data_penalty := 30 }

theorem missing_data_penalty_spec_witness :
    _calculate_missing_data_penalty w3 = 30 ∧ preRound s30 = (70 / 100) * baseTotal s30 := by
  have h := missing_data_penalty_spec w3
  have hc : (missingConds w3).countP id = 3 := by decide
  exact ⟨h.2.2.1 hc, h.2.2.2 s30 rfl⟩

/-! ## Lead-time parser evaluations -/

theorem tokenToRat_two : tokenToRat (['2'], []) = 2 := by
  have h : digitsToNat ['2'] = 2 := by decide
  simp only [tokenToRat, h]
  norm_num [digitsToNat]

theorem tokenToRat_fourteen : tokenToRat (['1', '4'], []) = 14 := by
  have h : digitsToNat ['1', '4'] = 14 := by decide
  simp only [tokenToRat, h]
  norm_num [digitsToNat]

theorem tokenToRat_eight : tokenToRat (['8'], []) = 8 := by
  have h : digitsToNat ['8'] = 8 := by decide
  simp only [tokenToRat, h]
  norm_num [digitsToNat]

theorem tokenToRat_one : tokenToRat (['1'], []) = 1 := by
  have h : digitsToNat ['1'] = 1 := by decide
  simp only [tokenToRat, h]
  norm_num [digitsToNat]

theorem convertUnits_two_months : ∀ x : ℚ,
    convertUnits (lowerChars "2 months") x = x * (433/100) := by
  intro x
  unfold convertUnits
  rw [show (containsToken (lowerChars "2 months") "day" ||
      containsToken (lowerChars "2 months") "tag") = false from rfl]
  rw [show (containsToken (lowerChars "2 months") "month" ||
      containsToken (lowerChars "2 months") "monat") = true from rfl]
  simp

theorem convertUnits_fourteen_days : ∀ x : ℚ,
    convertUnits (lowerChars "14 days") x = x / 7 := by
  intro x
  unfold convertUnits
  rw [show (containsToken (lowerChars "14 days") "day" ||
      containsToken (lowerChars "14 days") "tag") = true from rfl]
  simp

theorem convertUnits_eight_weeks : ∀ x : ℚ,
    convertUnits (lowerChars "8 weeks") x = x := by
  intro x
  unfold convertUnits
  rw [show (containsToken (lowerChars "8 weeks") "day" ||
      containsToken (lowerChars "8 weeks") "tag") = false from rfl]
  rw [show (containsToken (lowerChars "8 weeks") "month" ||
      containsToken (lowerChars "8 weeks") "monat") = false from rfl]
  rw [show (containsToken (lowerChars "8 weeks") "year" ||
      containsToken (lowerChars "8 weeks") "jahr") = false from rfl]
  simp

theorem convertUnits_one_year : ∀ x : ℚ,
    convertUnits (lowerChars "1 year") x = x * 52 := by
  intro x
  unfold convertUnits
  rw [show (containsToken (lowerChars "1 year") "day" ||
      containsToken (lowerChars "1 year") "tag") = false from rfl]
  rw [show (containsToken (lowerChars "1 year") "month" ||
      containsToken (lowerChars "1 year") "monat") = false from rfl]
  rw [show (containsToken (lowerChars "1 year") "year" ||
      containsToken (lowerChars "1 year") "jahr") = true from rfl]
  simp

theorem parse_two_months : _parse_lead_time (some "2 months") = some (87/10) := by
  rw [show _parse_lead_time (some "2 months") =
    some (round1 (convertUnits (lowerChars "2 months") (tokenToRat (['2'], [])))) from rfl]
  rw [tokenToRat_two, convertUnits_two_months]
  norm_num [round1, round_eq]

theorem parse_fourteen_days : _parse_lead_time (some "14 days") = some 2 := by
  rw [show _parse_lead_time (some "14 days") =
    some (round1 (convertUnits (lowerChars "14 days") (tokenToRat (['1', '4'], [])))) from rfl]
  rw [tokenToRat_fourteen, convertUnits_fourteen_days]
  norm_num [round1, round_eq]

theorem parse_eight_weeks : _parse_lead_time (some "8 weeks") = some 8 := by
  rw [show _parse_lead_time (some "8 weeks") =
    some (round1 (convertUnits (lowerChars "8 weeks") (tokenToRat (['8'], [])))) from rfl]
  rw [tokenToRat_eight, convertUnits_eight_weeks]
  norm_num [round1, round_eq]

theorem parse_one_year : _parse_lead_time (some "1 year") = some 52 := by
  rw [show _parse_lead_time (some "1 year") =
    some (round1 (convertUnits (lowerChars "1 year") (tokenToRat (['1'], [])))) from rfl]
  rw [tokenToRat_one, convertUnits_one_year]
  norm_num [round1, round_eq]

/-- C4 counterexample: the code rounds the lead time to one decimal place,
so `"2 months"` parses to 8.7, not to 8.66 = 2 × 4.33 as the claim states. -/
theorem lead_time_two_months_counterexample :
    _parse_lead_time (some "2 months") = some (87/10) ∧
    ¬ _parse_lead_time (some "2 months") = some (433/50) := by
  refine ⟨parse_two_months, ?_⟩
  rw [parse_two_months]
  intro h
  have h2 : (87/10 : ℚ) = 433/50 := Option.some.inj h
  norm_num at h2

/-- C4 (amended): the lead-time parser extracts the first numeric token,
divides by 7 for day units, multiplies by 4.33 for months and by 52 for
years, keeps plain numbers as weeks, rounds to one decimal, and returns
`none` on absent, empty, `"N/A"` or token-free input; `"2 months"` gives
8.7 (the one-decimal rounding of 8.66). -/
theorem lead_time_parser_spec :
    _parse_lead_time none = none ∧
    _parse_lead_time (some "") = none ∧
    _parse_lead_time (some "N/A") = none ∧
    _parse_lead_time (some "8 weeks") = some 8 ∧
    _parse_lead_time (some "14 days") = some 2 ∧
    _parse_lead_time (some "2 months") = some (87/10) ∧
    _parse_lead_time (some "1 year") = some 52 ∧
    ∀ s : String, s ≠ "" → s ≠ "N/A" → findFirstToken (lowerChars s) = none →
      _parse_lead_time (some s) = none := by
  refine ⟨rfl, rfl, rfl, parse_eight_weeks, parse_fourteen_days,
    parse_two_months, parse_one_year, ?_⟩
  intro s hs1 hs2 hf
  show (if (decide (s = "") || decide (s = "N/A")) = true then none
    else match findFirstToken (lowerChars s) with
      | none => none
      | some t => some (round1 (convertUnits (lowerChars s) (tokenToRat t)))) = none
  rw [if_neg, hf]
  intro hor
  rcases Bool.or_eq_true_iff.mp hor with h | h
  · exact hs1 (of_decide_eq_true h)
  · exact hs2 (of_decide_eq_true h)

theorem lead_time_parser_spec_witness : _parse_lead_time (some "soon") = none :=
  lead_time_parser_spec.2.2.2.2.2.2.2 "soon" (by decide) (by decide) rfl

/-- C5: TCO and the standalone tooling-cost figure apply the same renewal
multiplication rule — TCO minus the annual price×quantity total always
equals the standalone tooling cost; one-time/absent tooling is added once,
recurring tooling is multiplied by the covered years, and a 1000-unit
recurring tooling cost over 3 covered years contributes 3000 to both. -/
theorem tooling_renewal_consistency :
    ∀ q : ExtractedQuotation,
      _calculate_tco q - annualTotal q = _calculate_tooling_cost q ∧
      ((q.tooling_cost_type = none ∨ q.tooling_cost_type = some "one-time") →
        _calculate_tooling_cost q = q.tooling_cost.getD 0) ∧
      (isRecurringType q.tooling_cost_type = true →
        _calculate_tooling_cost q = (q.tooling_cost.getD 0) * (yearsMultiplier q : ℚ)) ∧
      (q.tooling_cost = some 1000 → isRecurringType q.tooling_cost_type = true →
        q.annual_prices.length = 3 →
        _calculate_tooling_cost q = 3000 ∧ _calculate_tco q = annualTotal q + 3000) := by
  intro q
  have hmult3 : q.annual_prices.length = 3 → yearsMultiplier q = 3 := by
    intro h3
    unfold yearsMultiplier
    rw [if_neg, h3]
    intro hempty
    rw [List.isEmpty_iff] at hempty
    rw [hempty] at h3
    simp at h3
  refine ⟨?_, ?_, ?_, ?_⟩
  · rcases hq : q.tooling_cost with _ | c
    · by_cases hr : isRecurringType q.tooling_cost_type <;>
        simp [_calculate_tco, _calculate_tooling_cost, hq, hr]
    · by_cases hc : c = 0
      · subst hc
        by_cases hr : isRecurringType q.tooling_cost_type <;>
          simp [_calculate_tco, _calculate_tooling_cost, hq, hr]
      · by_cases hr : isRecurringType q.tooling_cost_type
        · simp only [_calculate_tco, _calculate_tooling_cost, hq, hr, if_pos, if_neg hc,
            Option.getD_some, if_true]
          ring
        · simp only [_calculate_tco, _calculate_tooling_cost, hq, hr, if_neg hc,
            Option.getD_some, if_false, Bool.false_eq_true]
          ring
  · intro ht
    have hr : isRecurringType q.tooling_cost_type = false := by
      rcases ht with h | h <;> rw [h] <;> rfl
    simp [_calculate_tooling_cost, hr]
  · intro hr
    simp [_calculate_tooling_cost, hr]
  · intro h1000 hr h3
    have hm := hmult3 h3
    constructor
    · rw [show _calculate_tooling_cost q =
        (q.tooling_cost.getD 0) * (yearsMultiplier q : ℚ) by simp [_calculate_tooling_cost, hr]]
      rw [h1000, hm]
      norm_num
    · simp only [_calculate_tco, h1000, hr, hm]
      norm_num

/-- Witness quotation: 1000-unit recurring tooling over 3 covered years. -/
def q5 : ExtractedQuotation :=
  { supplier_name := "S5"
    annual_prices := [(2024, 10), (2025, 10), (2026, 10)]
    annual_quantities := [(2024, 100), (2025, 100), (2026, 100)]
    tooling_cost := some 1000
    tooling_cost_type := some "recurring"
    delivery_terms := none
    payment_terms := none
    lead_time := none
    currency := "EUR"
    quotation_date := none
    moq := none }

theorem tooling_renewal_consistency_witness :
    _calculate_tooling_cost q5 = 3000 ∧ _calculate_tco q5 = annualTotal q5 + 3000 :=
  (tooling_renewal_consistency q5).2.2.2 rfl (by decide) rfl

/-- C7: an empty cohort is a defined terminal state — the full compare
pipeline returns the empty result on it, and only on it. -/
theorem compare_empty_cohort :
    ∀ (recEngine : List CompareRow → Recommendation) (now : String),
      QuotationComparator.compare recEngine now [] = none ∧
      ∀ qs : List ExtractedQuotation,
        QuotationComparator.compare recEngine now qs = none ↔ qs = [] := by
  intro f now
  refine ⟨rfl, ?_⟩
  intro qs
  unfold QuotationComparator.compare
  by_cases h : qs.isEmpty
  · rw [if_pos h]
    simp [List.isEmpty_iff.mp h]
  · rw [if_neg h]
    constructor
    · intro hc
      cases hc
    · intro hqs
      rw [hqs] at h
      exact absurd rfl h

/-- C8: conversion to the reference currency is the identity for EUR no
matter the rate table, and unknown currency codes fall back to rate 1.0
instead of failing. -/
theorem convert_reference_and_unknown :
    (∀ (rates : List (String × ℚ)) (amount : ℚ), convert_with rates amount "EUR" = amount) ∧
    (∀ amount : ℚ, convert_to_eur amount "EUR" = amount) ∧
    (∀ (amount : ℚ) (c : String), EXCHANGE_RATES.lookup c = none →
      convert_to_eur amount c = amount * 1) := by
  refine ⟨?_, ?_, ?_⟩
  · intro rates amount
    unfold convert_with
    rw [if_pos rfl]
  · intro amount
    unfold convert_to_eur convert_with
    rw [if_pos rfl]
  · intro amount c hc
    unfold convert_to_eur convert_with
    by_cases hce : c = "EUR"
    · subst hce
      rw [show EXCHANGE_RATES.lookup "EUR" = some 1 from rfl] at hc
      cases hc
    · rw [if_neg hce, hc]
      rfl

theorem convert_reference_and_unknown_witness : convert_to_eur 5 "CHF" = 5 * 1 :=
  convert_reference_and_unknown.2.2 5 "CHF" rfl

/-- C9: dividing a reference-currency amount by a listed rate and
converting back reproduces the amount exactly, for all four currencies. -/
theorem convert_roundtrip :
    ∀ a : ℚ,
      convert_to_eur (a / (92/100)) "USD" = a ∧
      convert_to_eur (a / 1) "EUR" = a ∧
      convert_to_eur (a / (117/100)) "GBP" = a ∧
      convert_to_eur (a / (62/10000)) "JPY" = a := by
  intro a
  refine ⟨?_, ?_, ?_, ?_⟩
  · unfold convert_to_eur convert_with
    rw [if_neg (by decide : ¬ ("USD" : String) = "EUR"),
      show (EXCHANGE_RATES.lookup "USD").getD 1 = 92/100 from rfl]
    exact div_mul_cancel₀ a (by norm_num)
  · unfold convert_to_eur convert_with
    rw [if_pos rfl]
    exact div_one a
  · unfold convert_to_eur convert_with
    rw [if_neg (by decide : ¬ ("GBP" : String) = "EUR"),
      show (EXCHANGE_RATES.lookup "GBP").getD 1 = 117/100 from rfl]
    exact div_mul_cancel₀ a (by norm_num)
  · unfold convert_to_eur convert_with
    rw [if_neg (by decide : ¬ ("JPY" : String) = "EUR"),
      show (EXCHANGE_RATES.lookup "JPY").getD 1 = 62/10000 from rfl]
    exact div_mul_cancel₀ a (by norm_num)
